import Mathlib

/-!
Verification of the Texas-Weather repository.

This file gives a shallow embedding into Lean of the two Python source files:

* `automated_weather_pipeline.py` — in particular the bounded retry loop
  `run_pipeline_with_retry`, modelled as a fuel-indexed recursion that records
  the returned boolean, the number of pipeline invocations made, the sleeps
  performed (in seconds) and the sequence of log events, inside an `Except`
  so that exception propagation is expressible.
* `weather_dashboard.py` — the read-only database access, the alerts loader
  `load_alerts_data` with its bare `except` fallback, the severe-weather alert
  triage block, the sidebar filters applied to the forecast dataframe, and the
  CSV export (`to_csv(index=False)`) together with a CSV reader used to state
  the export round-trip property.

Theorems about these definitions follow after all the definitions.
-/

namespace TexasWeather

/-! ## Scheduled runner: the pipeline retry loop -/

/-- Value produced by a successful pipeline run: models the dict returned by
`WeatherPipeline.run` as consumed by the scheduler (its `execution_time` and
the lengths of the two record collections). -/
structure PipeResult where
  executionTime : Nat
  currentCount : Nat
  forecastCount : Nat
  deriving DecidableEq

/-- Outcome of one pipeline invocation (`WeatherPipeline()` plus `.run()`):
either some exception is raised, or a value is returned — `none` models a
falsy result (`if result:` fails), `some r` a truthy one. -/
inductive PipeOutcome where
  | raises (msg : String)
  | result (r : Option PipeResult)
  deriving DecidableEq

/-- One event written to the log sink by `run_pipeline_with_retry`. -/
inductive LogEntry where
  | sep
  | startAttempt (attempt total : Nat)
  | successMsg
  | execTime (t : Nat)
  | currentRecords (n : Nat)
  | forecastRecords (n : Nat)
  | noResult
  | failedAttempt (attempt : Nat) (msg : String)
  | retryingIn (minutes : Nat)
  | failedAfter (total : Nat)
  deriving DecidableEq

/-- Observable behaviour of one call to `run_pipeline_with_retry`:
the boolean it returns, how many pipeline invocations it made, the durations
(in seconds) passed to `time.sleep`, and the log events emitted. -/
structure RunStats where
  success : Bool
  attempts : Nat
  sleeps : List Nat
  log : List LogEntry
  deriving DecidableEq

/-- The three log lines emitted at the top of each attempt
(separator, the "Starting pipeline execution (Attempt k/N)" line, separator). -/
def attemptPre (attempt total : Nat) : List LogEntry :=
  [.sep, .startAttempt attempt total, .sep]

/-- The body of the `for attempt in range(1, MAX_RETRIES + 1)` loop of
`run_pipeline_with_retry`, indexed by the current attempt number and the
number of loop iterations remaining.  `n` is `MAX_RETRIES`, `d` is
`RETRY_DELAY_MINUTES`, and `b` gives the pipeline outcome of each attempt.
A truthy result returns `True`; a falsy result logs and falls through to the
next iteration with no sleep; a raised exception is caught, logged with the
attempt number, and followed by a `d * 60`-second sleep when attempts remain,
or by `return False` when they do not.  Exhausting the loop returns `False`. -/
def runAux (b : Nat → PipeOutcome) (n d : Nat) : Nat → Nat → Except String RunStats
  | _, 0 => .ok ⟨false, 0, [], []⟩
  | k, r + 1 =>
    match b k with
    | .result (some res) =>
      .ok ⟨true, 1, [],
        attemptPre k n ++ [.successMsg, .execTime res.executionTime,
          .currentRecords res.currentCount, .forecastRecords res.forecastCount]⟩
    | .result none =>
      match runAux b n d (k + 1) r with
      | .ok s => .ok ⟨s.success, s.attempts + 1, s.sleeps,
          attemptPre k n ++ [.noResult] ++ s.log⟩
      | .error e => .error e
    | .raises m =>
      if k < n then
        match runAux b n d (k + 1) r with
        | .ok s => .ok ⟨s.success, s.attempts + 1, d * 60 :: s.sleeps,
            attemptPre k n ++ [.failedAttempt k m, .retryingIn d] ++ s.log⟩
        | .error e => .error e
      else
        .ok ⟨false, 1, [], attemptPre k n ++ [.failedAttempt k m, .failedAfter n]⟩

/-- Model of `run_pipeline_with_retry` with `MAX_RETRIES = n` and
`RETRY_DELAY_MINUTES = d`: run the loop from attempt 1 with `n`
iterations available. -/
def run_pipeline_with_retry (b : Nat → PipeOutcome) (n d : Nat) :
    Except String RunStats :=
  runAux b n d 1 n

/-- An invocation outcome that the loop treats as a failure: a raised
exception or a falsy result. -/
def isFailureOutcome : PipeOutcome → Bool
  | .raises _ => true
  | .result none => true
  | .result (some _) => false

/-- Concrete behaviour used as a witness for claim C1: the first two attempts
raise, the third returns a truthy result. -/
def bFailTwice : Nat → PipeOutcome := fun k =>
  if k < 3 then .raises "boom" else .result (some ⟨2, 10, 40⟩)

/-- Concrete behaviour used as a witness for claim C2: every attempt raises. -/
def bAllFail : Nat → PipeOutcome := fun _ => .raises "down"

/-- Concrete behaviour for the claim C4 counterexample: attempt 1 returns a
falsy result, every later attempt succeeds. -/
def bNoResultFirst : Nat → PipeOutcome := fun k =>
  if k = 1 then .result none else .result (some ⟨1, 2, 3⟩)

/-- Concrete behaviour used in the claim C4 witness: every attempt raises. -/
def bRaiseE : Nat → PipeOutcome := fun _ => .raises "e"


/-! ## Dashboard reader: database access -/

/-- A forecast row of the `forecast_data` relation as the dashboard reads it:
city, date, temperature min/max/avg, humidity, wind speed, precipitation
probability and condition label.  Dates and measurements are modelled as
integers. -/
structure ForecastRow where
  city : String
  date : Int
  tempMin : Int
  tempMax : Int
  tempAvg : Int
  humidity : Int
  windSpeed : Int
  precipProb : Int
  conditions : String
  deriving DecidableEq

/-- An alert row of the `alerts_data` relation: event type, severity,
urgency, affected area, expiry, headline, instructions and the extraction
timestamp (modelled as seconds on an integer clock). -/
structure AlertRow where
  event : String
  severity : String
  urgency : String
  areaDesc : String
  expires : String
  headline : String
  instruction : String
  extractedAt : Int
  deriving DecidableEq

/-- The persisted analytical store: the forecast relation and the alerts
relation, the latter optional since `alerts_data` may not exist yet. -/
structure Store where
  forecastTable : List ForecastRow
  alertsTable : Option (List AlertRow)

/-- A DuckDB connection as the dashboard sees it: only its read-only flag
matters here. -/
structure Conn where
  readOnly : Bool

/-- Model of `get_database_connection`: the dashboard opens its single cached
connection with `read_only=True`. -/
def get_database_connection : Conn := ⟨true⟩

/-- Operations the database engine supports.  The dashboard only ever issues
the two SELECTs, but mutating operations exist in the engine and are included
so that "never mutates" is a statement with content. -/
inductive DbOp where
  | selectForecast
  | selectAlerts
  | insertForecast (r : ForecastRow)
  | dropAlertsTable

/-- Result of one database operation. -/
inductive QueryOut where
  | forecastRows (rows : List ForecastRow)
  | alertRows (rows : List AlertRow)
  | missingTable
  | readOnlyViolation
  | wrote

/-- Execute one operation against the store through a connection.  SELECTs
leave the store untouched; mutating operations are refused on a read-only
connection and otherwise change the store. -/
def execOp (c : Conn) (s : Store) : DbOp → QueryOut × Store
  | .selectForecast => (.forecastRows s.forecastTable, s)
  | .selectAlerts =>
    match s.alertsTable with
    | some rows => (.alertRows rows, s)
    | none => (.missingTable, s)
  | .insertForecast r =>
    if c.readOnly then (.readOnlyViolation, s)
    else (.wrote, { s with forecastTable := s.forecastTable ++ [r] })
  | .dropAlertsTable =>
    if c.readOnly then (.readOnlyViolation, s)
    else (.wrote, { s with alertsTable := none })

/-- Run a list of database operations in order, threading the store. -/
def runOps (c : Conn) : Store → List DbOp → List QueryOut × Store
  | s, [] => ([], s)
  | s, op :: ops =>
    let out := execOp c s op
    let rest := runOps c out.2 ops
    (out.1 :: rest.1, rest.2)

/-- The database operations one dashboard render pass issues: the forecast
SELECT of `load_forecast_data` and the alerts SELECT of `load_alerts_data`.
Everything else the render pass does works on in-memory dataframes. -/
def dashboardRenderOps : List DbOp := [.selectForecast, .selectAlerts]

/-- Ways the alerts read can fail, as seen from `load_alerts_data`:
the `alerts_data` table may not exist, or the query/connection may fail for
another reason. -/
inductive AlertsReadError where
  | tableMissing
  | otherFailure (msg : String)
  deriving DecidableEq

/-- Model of `load_alerts_data`: the whole body is wrapped in a bare
`try`/`except` that returns an empty DataFrame on any exception whatsoever,
so a failed read — whatever the failure — yields the empty collection. -/
def load_alerts_data (q : Except AlertsReadError (List AlertRow)) :
    List AlertRow :=
  match q with
  | .ok rows => rows
  | .error _ => []

/-! ## Dashboard reader: alert triage -/

/-- Case-insensitive character comparison over the ASCII letters, matching
pandas `str.contains(..., case=False)` on the alert labels used here. -/
def charEqCI (a b : Char) : Bool :=
  a.toNat = b.toNat
    || (a.toNat + 32 = b.toNat && 65 ≤ a.toNat && a.toNat ≤ 90)
    || (b.toNat + 32 = a.toNat && 65 ≤ b.toNat && b.toNat ≤ 90)

/-- Does the second character list start with the first, compared
case-insensitively? -/
def startsWithChars : List Char → List Char → Bool
  | [], _ => true
  | _ :: _, [] => false
  | a :: as, b :: bs => charEqCI a b && startsWithChars as bs

/-- Does the character list contain the given character list as a contiguous
run, compared case-insensitively? -/
def hasSubChars (needle : List Char) : List Char → Bool
  | [] => startsWithChars needle []
  | c :: cs => startsWithChars needle (c :: cs) || hasSubChars needle cs

/-- Model of `series.str.contains(needle, case=False)` on one cell. -/
def strContainsCI (hay needle : String) : Bool :=
  hasSubChars needle.data hay.data

/-- An alert row whose event label contains "Tornado". -/
def isTornado (a : AlertRow) : Bool := strContainsCI a.event "Tornado"

/-- An alert row whose event label contains "Severe Thunderstorm". -/
def isThunderstorm (a : AlertRow) : Bool :=
  strContainsCI a.event "Severe Thunderstorm"

/-- An alert row that is neither tornado nor severe-thunderstorm but whose
severity is "Extreme" or "Severe". -/
def isOtherSevere (a : AlertRow) : Bool :=
  !(isTornado a || isThunderstorm a)
    && (a.severity == "Extreme" || a.severity == "Severe")

/-- An alert row whose severity is "Moderate" or "Minor". -/
def isModerate (a : AlertRow) : Bool :=
  a.severity == "Moderate" || a.severity == "Minor"

/-- The alert rows extracted within the last 24 hours:
`(datetime.now() - extracted_at).total_seconds() < 86400`. -/
def recentOf (now : Int) (alerts : List AlertRow) : List AlertRow :=
  alerts.filter (fun a => now - a.extractedAt < 86400)

/-- What the alerts banner section of one render pass displays: whether the
tornado and thunderstorm banners appear and which rows they expand (top 3),
the other-severe count and its top 3, the moderate/minor informational count,
and whether the clear-status indicator ("No active severe weather alerts")
is shown. -/
structure TriageView where
  tornadoBanner : Bool
  tornadoShown : List AlertRow
  thunderBanner : Bool
  thunderShown : List AlertRow
  otherSevereCount : Nat
  otherSevereShown : List AlertRow
  moderateCount : Nat
  clearStatus : Bool
  deriving DecidableEq

/-- The severe-weather alerts banner block of the dashboard: when the alerts
dataframe is non-empty it keeps the rows from the last 24 hours and surfaces
the cascading filters; the clear-status indicator is the `else` branch of the
`len(alerts_df) > 0` test.  When the dataframe is non-empty but no row is
recent, the inner block displays nothing at all. -/
def triage (now : Int) (alerts : List AlertRow) : TriageView :=
  if alerts.length > 0 then
    let recent := recentOf now alerts
    if recent.length > 0 then
      let tornado := recent.filter isTornado
      let thunder := recent.filter isThunderstorm
      let others := recent.filter isOtherSevere
      let mods := recent.filter isModerate
      ⟨tornado.length > 0, tornado.take 3,
       thunder.length > 0, thunder.take 3,
       others.length, others.take 3,
       mods.length, false⟩
    else
      ⟨false, [], false, [], 0, [], 0, false⟩
  else
    ⟨false, [], false, [], 0, [], 0, true⟩

/-- Reference instant for the concrete triage scenario, in seconds. -/
def tNow : Int := 200000

/-- The "Tornado Warning" row extracted 1 hour (3600 s) before `tNow`. -/
def rowTornadoWarn : AlertRow :=
  ⟨"Tornado Warning", "Extreme", "Immediate", "Travis County, TX",
   "2025-06-01T12:00:00", "Tornado Warning for Travis County",
   "Take shelter now", 196400⟩

/-- The "Flood Watch" row of severity "Minor" extracted 2 hours (7200 s)
before `tNow`. -/
def rowFloodWatch : AlertRow :=
  ⟨"Flood Watch", "Minor", "Expected", "Harris County, TX",
   "2025-06-02T00:00:00", "Flood Watch for Harris County",
   "Avoid low areas", 192800⟩

/-- The "Tornado Watch" row extracted 30 hours (108000 s) before `tNow`. -/
def rowTornadoWatch : AlertRow :=
  ⟨"Tornado Watch", "Severe", "Expected", "Dallas County, TX",
   "2025-05-31T18:00:00", "Tornado Watch for Dallas County",
   "Stay alert", 92000⟩

/-! ## Dashboard reader: sidebar filters -/

/-- The city filter: rows are narrowed to the selected city unless "All" is
selected. -/
def filterCity (selectedCity : String) (df : List ForecastRow) :
    List ForecastRow :=
  if selectedCity ≠ "All" then df.filter (fun r => r.city == selectedCity)
  else df

/-- The date-range filter: applied only when the widget returned a pair,
keeping rows whose date lies in the closed interval. -/
def filterDate (dateRange : List Int) (df : List ForecastRow) :
    List ForecastRow :=
  match dateRange with
  | [lo, hi] => df.filter (fun r => lo ≤ r.date && r.date ≤ hi)
  | _ => df

/-- The temperature-band filter: keeps rows with
`temp_range[0] <= temp_max <= temp_range[1]`. -/
def filterTemp (lo hi : Int) (df : List ForecastRow) : List ForecastRow :=
  df.filter (fun r => lo ≤ r.tempMax && r.tempMax ≤ hi)

/-- The full sidebar filter pipeline producing `filtered_df`: city, then date
range, then temperature band. -/
def applyFilters (selectedCity : String) (dateRange : List Int)
    (lo hi : Int) (df : List ForecastRow) : List ForecastRow :=
  filterTemp lo hi (filterDate dateRange (filterCity selectedCity df))

/-- Replace the `temp_min` field of a row, leaving all else unchanged. -/
def setTempMin (m : Int) (r : ForecastRow) : ForecastRow :=
  { r with tempMin := m }

/-! ## Dashboard reader: CSV export -/

/-- The header row `to_csv` writes for `filtered_df` (`index=False`, so no
index column): the Forecast Row schema. -/
def headerFields : List String :=
  ["city", "date", "temp_min", "temp_max", "temp_avg", "humidity",
   "wind_speed", "precipitation_prob", "conditions"]

/-- The cell values of one forecast row, in column order, as the strings
written to the CSV. -/
def toFields (r : ForecastRow) : List String :=
  [r.city, toString r.date, toString r.tempMin, toString r.tempMax,
   toString r.tempAvg, toString r.humidity, toString r.windSpeed,
   toString r.precipProb, r.conditions]

/-- Does a cell need quoting (minimal quoting, as pandas `to_csv` does):
it contains the delimiter, the quote character, or a line break. -/
def needsQuote (l : List Char) : Bool :=
  l.any (fun c => c = ',' || c = '\"' || c = '\n' || c = '\r')

/-- Escape the interior of a quoted cell by doubling each quote character. -/
def escQ : List Char → List Char
  | [] => []
  | c :: t => if c = '\"' then '\"' :: '\"' :: escQ t else c :: escQ t

/-- Serialise one cell: quoted with doubled interior quotes when needed,
verbatim otherwise. -/
def encodeField (s : String) : List Char :=
  if needsQuote s.data then '\"' :: (escQ s.data ++ ['\"']) else s.data

/-- Join the serialised cells of one record with commas. -/
def joinFields : List String → List Char
  | [] => []
  | [f] => encodeField f
  | f :: fs => encodeField f ++ ',' :: joinFields fs

/-- Serialise one record: its joined cells followed by the line terminator. -/
def encodeRec (fs : List String) : List Char :=
  joinFields fs ++ ['\n']

/-- Serialise a table: the concatenation of its serialised records. -/
def encodeTable : List (List String) → List Char
  | [] => []
  | r :: rs => encodeRec r ++ encodeTable rs

/-- Model of `filtered_df.to_csv(index=False)`: the header record followed by
one record per filtered forecast row. -/
def to_csv (rows : List ForecastRow) : String :=
  ⟨encodeTable (headerFields :: rows.map toFields)⟩

mutual

/-- CSV reader state: inside an unquoted cell.  `fs` holds the completed
cells of the current record, `acc` the characters of the current cell.
A comma ends the cell, a newline ends the record, a quote is only legal at
the start of a cell and switches to the quoted state. -/
def recU (fs : List String) (acc : List Char) (cs : List Char) :
    Option (List String × List Char) :=
  match cs with
  | [] => none
  | c :: cs' =>
    if c = ',' then recU (fs ++ [⟨acc⟩]) [] cs'
    else if c = '\n' then some (fs ++ [⟨acc⟩], cs')
    else if c = '\"' then (if acc = [] then recQ fs [] cs' else none)
    else recU fs (acc ++ [c]) cs'
  termination_by cs.length

/-- CSV reader state: inside a quoted cell.  A doubled quote is a literal
quote; a quote followed by a comma or newline closes the cell; any other
character is literal. -/
def recQ (fs : List String) (acc : List Char) (cs : List Char) :
    Option (List String × List Char) :=
  match cs with
  | [] => none
  | c :: cs' =>
    if c = '\"' then
      match cs' with
      | [] => none
      | d :: cs2 =>
        if d = '\"' then recQ fs (acc ++ ['\"']) cs2
        else if d = ',' then recU (fs ++ [⟨acc⟩]) [] cs2
        else if d = '\n' then some (fs ++ [⟨acc⟩], cs2)
        else none
    else recQ fs (acc ++ [c]) cs'
  termination_by cs.length

end

/-- Parse at most `fuel` records from the character stream; an empty stream
is the end of the file. -/
def parseRowsFuel : Nat → List Char → Option (List (List String))
  | _, [] => some []
  | 0, _ :: _ => none
  | fuel + 1, c :: cs =>
    match recU [] [] (c :: cs) with
    | some (r, rest) =>
      match parseRowsFuel fuel rest with
      | some rs => some (r :: rs)
      | none => none
    | none => none

/-- Re-parse an exported CSV: read all records, require the expected header
record, and return the data records as lists of cell strings. -/
def parseCsv (s : String) : Option (List (List String)) :=
  match parseRowsFuel s.data.length s.data with
  | some (h :: recs) => if h = headerFields then some recs else none
  | _ => none

end TexasWeather

namespace TexasWeather

/-! ## Theorems: the retry loop (claims C1-C4) -/

/-- Unfolding of the loop when the current attempt returns a truthy result:
log the summary and return `True` immediately. -/
theorem runAux_step_success (b : Nat → PipeOutcome) (n d k r : Nat)
    (res : PipeResult) (hb : b k = .result (some res)) :
    runAux b n d k (r + 1) = .ok ⟨true, 1, [],
      attemptPre k n ++ [.successMsg, .execTime res.executionTime,
        .currentRecords res.currentCount,
        .forecastRecords res.forecastCount]⟩ := by
  rw [runAux.eq_def]
  simp [hb]

/-- Unfolding of the loop when the current attempt returns a falsy result:
log the plain "returned no result" line and fall through to the next
iteration, with no sleep. -/
theorem runAux_step_noResult (b : Nat → PipeOutcome) (n d k r : Nat)
    (hb : b k = .result none) :
    runAux b n d k (r + 1) = (runAux b n d (k + 1) r).map
      (fun s => ⟨s.success, s.attempts + 1, s.sleeps,
        attemptPre k n ++ [.noResult] ++ s.log⟩) := by
  rw [runAux.eq_def]
  cases hrec : runAux b n d (k + 1) r with
  | ok s => simp [hb, hrec, Except.map]
  | error e => simp [hb, hrec, Except.map]

/-- Unfolding of the loop when the current attempt raises and attempts
remain: log the failure with the attempt number, sleep `d * 60` seconds, and
continue. -/
theorem runAux_step_raises_retry (b : Nat → PipeOutcome) (n d k r : Nat)
    (m : String) (hb : b k = .raises m) (hlt : k < n) :
    runAux b n d k (r + 1) = (runAux b n d (k + 1) r).map
      (fun s => ⟨s.success, s.attempts + 1, d * 60 :: s.sleeps,
        attemptPre k n ++ [.failedAttempt k m, .retryingIn d] ++ s.log⟩) := by
  rw [runAux.eq_def]
  cases hrec : runAux b n d (k + 1) r with
  | ok s => simp [hb, hrec, hlt, Except.map]
  | error e => simp [hb, hrec, hlt, Except.map]

/-- Unfolding of the loop when the current attempt raises and no attempts
remain: log exhaustion and return `False`. -/
theorem runAux_step_raises_last (b : Nat → PipeOutcome) (n d k r : Nat)
    (m : String) (hb : b k = .raises m) (hge : ¬ k < n) :
    runAux b n d k (r + 1) =
      .ok ⟨false, 1, [], attemptPre k n ++ [.failedAttempt k m,
        .failedAfter n]⟩ := by
  rw [runAux.eq_def]
  simp [hb, hge]

/-- Generalisation of claim C2 over the loop entry point: if every attempt in
range fails, the loop consumes exactly the remaining iterations and returns
`false`. -/
theorem runAux_all_fail (b : Nat → PipeOutcome) (n d : Nat)
    (hfail : ∀ k, 1 ≤ k → k ≤ n → isFailureOutcome (b k) = true) :
    ∀ r k, k + r = n + 1 → 1 ≤ k →
      ∃ sl lg, runAux b n d k r = .ok ⟨false, r, sl, lg⟩ := by
  intro r
  induction r with
  | zero => intro k hk h1; exact ⟨[], [], rfl⟩
  | succ r ih =>
    intro k hk h1
    have hkn : k ≤ n := by omega
    have hf := hfail k h1 hkn
    cases hb : b k with
    | result o =>
      cases o with
      | some res => rw [hb] at hf; simp [isFailureOutcome] at hf
      | none =>
        obtain ⟨sl, lg, hrec⟩ := ih (k + 1) (by omega) (by omega)
        refine ⟨sl, attemptPre k n ++ [.noResult] ++ lg, ?_⟩
        rw [runAux_step_noResult b n d k r hb, hrec]
        rfl
    | raises m =>
      by_cases hlt : k < n
      · obtain ⟨sl, lg, hrec⟩ := ih (k + 1) (by omega) (by omega)
        refine ⟨d * 60 :: sl,
          attemptPre k n ++ [.failedAttempt k m, .retryingIn d] ++ lg, ?_⟩
        rw [runAux_step_raises_retry b n d k r m hb hlt, hrec]
        rfl
      · have hr : r = 0 := by omega
        subst hr
        exact ⟨[], attemptPre k n ++ [.failedAttempt k m, .failedAfter n],
          runAux_step_raises_last b n d k 0 m hb hlt⟩

/-- Claim C2: for every max-attempts count `n ≥ 1` and delay `d`, if every
pipeline invocation fails (raises or returns no result), then
`run_pipeline_with_retry` returns `False` after making exactly `n` attempts,
never making an `(n + 1)`-th one. -/
theorem run_pipeline_with_retry_exhausts_on_all_failures
    (b : Nat → PipeOutcome) (n d : Nat) (hn : 1 ≤ n)
    (hfail : ∀ k, 1 ≤ k → k ≤ n → isFailureOutcome (b k) = true) :
    ∃ sl lg, run_pipeline_with_retry b n d = .ok ⟨false, n, sl, lg⟩ :=
  runAux_all_fail b n d hfail n 1 (by omega) (by omega)

/-- Witness for claim C2 at `n = 2`, `d = 7` with every attempt raising. -/
theorem run_pipeline_with_retry_exhausts_on_all_failures_witness :
    ∃ sl lg, run_pipeline_with_retry bAllFail 2 7 = .ok ⟨false, 2, sl, lg⟩ :=
  run_pipeline_with_retry_exhausts_on_all_failures bAllFail 2 7 (by decide)
    (fun k _ _ => rfl)

/-- Generalisation of claim C1 over the loop entry point: if every attempt
strictly before `n` raises and attempt `n` returns a truthy result, then from
attempt `k` with `r ≥ 1` iterations remaining the loop succeeds, consumes all
`r` iterations, and sleeps `r - 1` times for `d * 60` seconds each. -/
theorem runAux_fail_then_succeed (b : Nat → PipeOutcome) (n d : Nat)
    (res : PipeResult)
    (hfail : ∀ k, 1 ≤ k → k < n → ∃ m, b k = .raises m)
    (hsucc : b n = .result (some res)) :
    ∀ r k, k + r = n + 1 → 1 ≤ k → 1 ≤ r →
      ∃ lg, runAux b n d k r =
        .ok ⟨true, r, List.replicate (r - 1) (d * 60), lg⟩ := by
  intro r
  induction r with
  | zero => intro k _ _ hr; omega
  | succ r ih =>
    intro k hk h1 _
    by_cases hr : r = 0
    · subst hr
      obtain rfl : n = k := by omega
      refine ⟨attemptPre n n ++ [.successMsg, .execTime res.executionTime,
        .currentRecords res.currentCount,
        .forecastRecords res.forecastCount], ?_⟩
      rw [runAux_step_success b n d n 0 res hsucc]
      simp
    · have hlt : k < n := by omega
      obtain ⟨m, hm⟩ := hfail k h1 hlt
      obtain ⟨q, rfl⟩ : ∃ q, r = q + 1 := ⟨r - 1, by omega⟩
      obtain ⟨lg, hrec⟩ := ih (k + 1) (by omega) (by omega) (by omega)
      refine ⟨attemptPre k n ++ [.failedAttempt k m, .retryingIn d] ++ lg, ?_⟩
      rw [runAux_step_raises_retry b n d k (q + 1) m hm hlt, hrec]
      simp only [Nat.add_sub_cancel] at *
      simp [Except.map, List.replicate_succ]

/-- Claim C1: for every max-attempts count `n ≥ 1` and delay `d`, if the
pipeline invocation raises on each of the first `n - 1` attempts and returns
a truthy result on attempt `n`, then `run_pipeline_with_retry` returns
`True`, makes exactly `n` attempts, and sleeps exactly `n - 1` times, each
for `d` minutes (`d * 60` seconds). -/
theorem run_pipeline_with_retry_succeeds_after_failures
    (b : Nat → PipeOutcome) (n d : Nat) (res : PipeResult) (hn : 1 ≤ n)
    (hfail : ∀ k, 1 ≤ k → k < n → ∃ m, b k = .raises m)
    (hsucc : b n = .result (some res)) :
    ∃ lg, run_pipeline_with_retry b n d =
      .ok ⟨true, n, List.replicate (n - 1) (d * 60), lg⟩ :=
  runAux_fail_then_succeed b n d res hfail hsucc n 1 (by omega) (by omega) hn

/-- Witness for claim C1 at `n = 3`, `d = 5`: attempts 1 and 2 raise,
attempt 3 returns a truthy result; the run succeeds after 3 attempts with two
300-second sleeps. -/
theorem run_pipeline_with_retry_succeeds_after_failures_witness :
    ∃ lg, run_pipeline_with_retry bFailTwice 3 5 =
      .ok ⟨true, 3, List.replicate 2 300, lg⟩ :=
  run_pipeline_with_retry_succeeds_after_failures bFailTwice 3 5 ⟨2, 10, 40⟩
    (by decide)
    (fun k h1 h2 => ⟨"boom", by
      have hk : k = 1 ∨ k = 2 := by omega
      rcases hk with hk | hk <;> subst hk <;> rfl⟩)
    rfl

/-- Helper for claim C3: the loop never produces an `Except.error`, whatever
the pipeline does on each attempt. -/
theorem runAux_isOk (b : Nat → PipeOutcome) (n d : Nat) :
    ∀ r k, (runAux b n d k r).isOk = true := by
  intro r
  induction r with
  | zero => intro k; rfl
  | succ r ih =>
    intro k
    cases hb : b k with
    | result o =>
      cases o with
      | some res =>
        rw [runAux_step_success b n d k r res hb]
        rfl
      | none =>
        rw [runAux_step_noResult b n d k r hb]
        cases hrec : runAux b n d (k + 1) r with
        | ok s => rfl
        | error e =>
          have h := ih (k + 1)
          rw [hrec] at h
          exact absurd h (by simp [Except.isOk, Except.toBool])
    | raises m =>
      by_cases hlt : k < n
      · rw [runAux_step_raises_retry b n d k r m hb hlt]
        cases hrec : runAux b n d (k + 1) r with
        | ok s => rfl
        | error e =>
          have h := ih (k + 1)
          rw [hrec] at h
          exact absurd h (by simp [Except.isOk, Except.toBool])
      · rw [runAux_step_raises_last b n d k r m hb hlt]
        rfl

/-- Claim C3: for every behaviour of the pipeline invocation (any result or
any raised exception on any attempt) and all configuration values,
`run_pipeline_with_retry` never propagates an exception: it always
terminates in `Except.ok`, carrying the returned boolean together with the
logged details of every failure. -/
theorem run_pipeline_with_retry_never_raises
    (b : Nat → PipeOutcome) (n d : Nat) :
    ∃ s : RunStats, run_pipeline_with_retry b n d = .ok s := by
  have h := runAux_isOk b n d n 1
  cases hr : runAux b n d 1 n with
  | ok s => exact ⟨s, hr⟩
  | error e => rw [hr] at h; exact absurd h (by simp [Except.isOk, Except.toBool])

/-- Counterexample to claim C4: with `MAX_RETRIES = 3` and a 5-minute retry
delay, when attempt 1 returns no result (falsy, without raising) and
attempt 2 succeeds, the run sleeps nowhere at all — the claimed 300-second
suspension before attempt 2 never happens, because `time.sleep` sits only in
the `except` clause and a falsy result takes the `else` branch instead. -/
theorem run_pipeline_with_retry_no_sleep_on_falsy_cex :
    ¬ (∀ s : RunStats, run_pipeline_with_retry bNoResultFirst 3 5 = .ok s →
        300 ∈ s.sleeps) := by
  intro h
  have hrun : run_pipeline_with_retry bNoResultFirst 3 5 =
      .ok ⟨true, 2, [],
        attemptPre 1 3 ++ [.noResult] ++ attemptPre 2 3 ++
          [.successMsg, .execTime 1, .currentRecords 2,
            .forecastRecords 3]⟩ := by rfl
  have hmem := h _ hrun
  simp at hmem

/-- Claim C4 as amended: on an attempt where the invocation raises, the
failure is logged with the attempt number and error detail and, when
attempts remain, a `d * 60`-second sleep precedes the next attempt; on an
attempt where the invocation returns no result, a failure line without the
attempt number is logged and the next attempt begins immediately, with no
sleep. -/
theorem runAux_failure_step (b : Nat → PipeOutcome) (n d k r : Nat) :
    (∀ m, b k = .raises m → k < n →
      runAux b n d k (r + 1) = (runAux b n d (k + 1) r).map
        (fun s => ⟨s.success, s.attempts + 1, d * 60 :: s.sleeps,
          attemptPre k n ++ [.failedAttempt k m, .retryingIn d] ++ s.log⟩))
    ∧ (b k = .result none →
      runAux b n d k (r + 1) = (runAux b n d (k + 1) r).map
        (fun s => ⟨s.success, s.attempts + 1, s.sleeps,
          attemptPre k n ++ [.noResult] ++ s.log⟩)) :=
  ⟨fun m hm hlt => runAux_step_raises_retry b n d k r m hm hlt,
   fun hm => runAux_step_noResult b n d k r hm⟩

/-- Witness for the amended claim C4, applying `runAux_failure_step` at
attempt 1 of a 3-attempt run both for a raising behaviour (`bRaiseE`) and
for a falsy-result behaviour (`bNoResultFirst`). -/
theorem runAux_failure_step_witness :
    (runAux bRaiseE 3 5 1 3 = (runAux bRaiseE 3 5 2 2).map
      (fun s => ⟨s.success, s.attempts + 1, 5 * 60 :: s.sleeps,
        attemptPre 1 3 ++ [.failedAttempt 1 "e", .retryingIn 5] ++ s.log⟩))
    ∧ (runAux bNoResultFirst 3 5 1 3 = (runAux bNoResultFirst 3 5 2 2).map
      (fun s => ⟨s.success, s.attempts + 1, s.sleeps,
        attemptPre 1 3 ++ [.noResult] ++ s.log⟩)) :=
  ⟨(runAux_failure_step bRaiseE 3 5 1 2).1 "e" rfl (by decide),
   (runAux_failure_step bNoResultFirst 3 5 1 2).2 rfl⟩

end TexasWeather

namespace TexasWeather

/-! ## Theorems: dashboard data access and triage (claims C5-C7, C9, C10) -/

/-- Counterexample to claim C5: a read failure of the alerts relation other
than a missing table — here a concrete query/connection failure — is not
surfaced: `load_alerts_data` returns the empty collection, indistinguishable
from a successfully read empty table, because its bare `except` catches
every exception. -/
theorem load_alerts_data_swallows_other_failures_cex :
    load_alerts_data (.error (.otherFailure "connection refused")) = [] ∧
    load_alerts_data (.error (.otherFailure "connection refused")) =
      load_alerts_data (.ok []) :=
  ⟨rfl, rfl⟩

/-- Claim C5 as amended: a missing `alerts_data` table yields the empty
collection (no alerts, not an error) — and so does every other read failure
of the alerts relation; no alerts-read failure is surfaced as an error.  A
successful read returns its rows unchanged. -/
theorem load_alerts_data_empty_on_any_failure :
    (∀ e : AlertsReadError, load_alerts_data (.error e) = []) ∧
    (∀ rows : List AlertRow, load_alerts_data (.ok rows) = rows) :=
  ⟨fun e => rfl, fun rows => rfl⟩

/-- Claim C6: on exactly the three rows of the scenario — a "Tornado
Warning" extracted 1 hour ago, a "Flood Watch" of severity "Minor" extracted
2 hours ago, and a "Tornado Watch" extracted 30 hours ago — the triage
surfaces the tornado banner with exactly the one recent tornado row (the
30-hour-old tornado row is excluded as older than 24 hours) and an
informational minor-alert count of exactly 1. -/
theorem triage_concrete_scenario :
    (triage tNow [rowTornadoWarn, rowFloodWatch, rowTornadoWatch]).tornadoBanner
        = true ∧
    (triage tNow [rowTornadoWarn, rowFloodWatch, rowTornadoWatch]).tornadoShown
        = [rowTornadoWarn] ∧
    (triage tNow [rowTornadoWarn, rowFloodWatch, rowTornadoWatch]).moderateCount
        = 1 :=
  ⟨rfl, rfl, rfl⟩


/-- Counterexample to claim C7: a non-empty alerts collection whose only row
was extracted 30 hours ago has no row within the last 24 hours, yet the
clear-status indicator is not displayed — the `st.success` line is the
`else` of `len(alerts_df) > 0`, not of the recency test, so this render
shows neither alerts nor the clear-status indicator. -/
theorem triage_clear_status_missing_for_stale_cex :
    recentOf tNow [rowTornadoWatch] = [] ∧
    (triage tNow [rowTornadoWatch]).clearStatus = false :=
  ⟨rfl, rfl⟩

/-- Claim C7 as amended: the clear-status indicator is displayed exactly when
the alerts collection is empty; a non-empty collection whose rows are all
older than 24 hours displays neither alerts nor the clear-status
indicator. -/
theorem triage_clear_status_iff_no_rows (now : Int) (alerts : List AlertRow) :
    (triage now alerts).clearStatus = true ↔ alerts = [] := by
  cases alerts with
  | nil => simp [triage]
  | cons a t =>
    simp only [triage, List.length_cons]
    rw [if_pos (by omega : t.length + 1 > 0)]
    split <;> simp

/-- Claim C9: a dashboard render pass issues only the two SELECTs, through
the connection `get_database_connection` opened read-only, and leaves the
persisted analytical store exactly as it found it. -/
theorem dashboard_render_leaves_store_unchanged (s : Store) :
    (runOps get_database_connection s dashboardRenderOps).2 = s ∧
    get_database_connection.readOnly = true := by
  refine ⟨?_, rfl⟩
  cases h : s.alertsTable with
  | none => simp [runOps, dashboardRenderOps, execOp, h]
  | some rows => simp [runOps, dashboardRenderOps, execOp, h]

/-- Claim C10: after the city and date filters, the temperature-band filter
retains a row exactly when `lo ≤ temp_max ≤ hi`; and the filter consults
only the `temp_max` column — rewriting the `temp_min` of every row commutes with
it, so a row whose `temp_min` lies outside the band is retained whenever its
`temp_max` is inside it. -/
theorem filterTemp_uses_only_temp_max :
    (∀ (selectedCity : String) (dateRange : List Int) (lo hi : Int)
        (df : List ForecastRow) (r : ForecastRow),
      r ∈ applyFilters selectedCity dateRange lo hi df ↔
        (r ∈ filterDate dateRange (filterCity selectedCity df) ∧
          lo ≤ r.tempMax ∧ r.tempMax ≤ hi))
    ∧ (∀ (lo hi : Int) (df : List ForecastRow) (m : Int),
      filterTemp lo hi (df.map (setTempMin m)) =
        (filterTemp lo hi df).map (setTempMin m)) := by
  constructor
  · intro selectedCity dateRange lo hi df r
    simp [applyFilters, filterTemp, List.mem_filter, and_assoc]
  · intro lo hi df m
    induction df with
    | nil => rfl
    | cons r t ih =>
      simp only [List.map_cons, filterTemp, List.filter_cons] at ih ⊢
      by_cases h : (lo ≤ r.tempMax ∧ r.tempMax ≤ hi)
      · simp [setTempMin, h.1, h.2] at ih ⊢
        exact ih
      · rw [Classical.not_and_iff_or_not_not] at h
        cases h with
        | inl h => simp [setTempMin, h] at ih ⊢; exact ih
        | inr h => simp [setTempMin, h] at ih ⊢; exact ih


/-! ## Theorems: CSV export round-trip (claim C8) -/

/-- Reader step: a comma in unquoted state closes the current cell. -/
theorem recU_step_comma (gs : List String) (acc tail : List Char) :
    recU gs acc (',' :: tail) = recU (gs ++ [⟨acc⟩]) [] tail := by
  rw [recU]
  simp

/-- Reader step: a newline in unquoted state closes the cell and the record. -/
theorem recU_step_nl (gs : List String) (acc tail : List Char) :
    recU gs acc ('\n' :: tail) = some (gs ++ [⟨acc⟩], tail) := by
  rw [recU]
  simp

/-- Reader step: a quote at the start of a cell enters quoted state. -/
theorem recU_step_quote (gs : List String) (tail : List Char) :
    recU gs [] ('\"' :: tail) = recQ gs [] tail := by
  rw [recU]
  simp

/-- Reader step: an ordinary character in unquoted state is accumulated. -/
theorem recU_step_plain (gs : List String) (acc tail : List Char) (c : Char)
    (h1 : ¬ c = ',') (h2 : ¬ c = '\n') (h3 : ¬ c = '\"') :
    recU gs acc (c :: tail) = recU gs (acc ++ [c]) tail := by
  rw [recU.eq_def]
  simp [h1, h2, h3]

/-- Reader step: a doubled quote in quoted state is a literal quote. -/
theorem recQ_step_dquote (gs : List String) (acc tail : List Char) :
    recQ gs acc ('\"' :: '\"' :: tail) = recQ gs (acc ++ ['\"']) tail := by
  rw [recQ]
  simp

/-- Reader step: quote-comma in quoted state closes the cell. -/
theorem recQ_step_close_comma (gs : List String) (acc tail : List Char) :
    recQ gs acc ('\"' :: ',' :: tail) = recU (gs ++ [⟨acc⟩]) [] tail := by
  rw [recQ]
  simp

/-- Reader step: quote-newline in quoted state closes cell and record. -/
theorem recQ_step_close_nl (gs : List String) (acc tail : List Char) :
    recQ gs acc ('\"' :: '\n' :: tail) = some (gs ++ [⟨acc⟩], tail) := by
  rw [recQ]
  simp

/-- Reader step: an ordinary character in quoted state is accumulated. -/
theorem recQ_step_plain (gs : List String) (acc tail : List Char) (c : Char)
    (hc : ¬ c = '\"') :
    recQ gs acc (c :: tail) = recQ gs (acc ++ [c]) tail := by
  rw [recQ.eq_def]
  simp [hc]

/-- Consuming an unquoted cell: scanning characters free of the delimiter,
quote and newline accumulates them, and the following delimiter closes the
cell (a comma continues the record, a newline ends it). -/
theorem recU_plain (gs : List String) (rest : List Char) :
    ∀ (l acc : List Char),
      (∀ c ∈ l, ¬ c = ',' ∧ ¬ c = '\n' ∧ ¬ c = '\"') →
      recU gs acc (l ++ ',' :: rest) = recU (gs ++ [⟨acc ++ l⟩]) [] rest ∧
      recU gs acc (l ++ '\n' :: rest) = some (gs ++ [⟨acc ++ l⟩], rest) := by
  intro l
  induction l with
  | nil =>
    intro acc hchars
    rw [List.nil_append, List.nil_append, recU_step_comma, recU_step_nl]
    simp
  | cons c l ih =>
    intro acc hchars
    obtain ⟨hc1, hc2, hc3⟩ := hchars c (List.mem_cons_self c l)
    have hrest : ∀ x ∈ l, ¬ x = ',' ∧ ¬ x = '\n' ∧ ¬ x = '\"' :=
      fun x hx => hchars x (List.mem_cons_of_mem c hx)
    obtain ⟨ih1, ih2⟩ := ih (acc ++ [c]) hrest
    constructor
    · rw [List.cons_append, recU_step_plain gs acc _ c hc1 hc2 hc3, ih1]
      simp
    · rw [List.cons_append, recU_step_plain gs acc _ c hc1 hc2 hc3, ih2]
      simp

/-- Consuming the escaped interior of a quoted cell: doubled quotes read
back as literal quotes, and the closing quote plus delimiter closes the
cell. -/
theorem recQ_escape (gs : List String) (rest : List Char) :
    ∀ (l acc : List Char),
      recQ gs acc (escQ l ++ '\"' :: ',' :: rest) =
        recU (gs ++ [⟨acc ++ l⟩]) [] rest ∧
      recQ gs acc (escQ l ++ '\"' :: '\n' :: rest) =
        some (gs ++ [⟨acc ++ l⟩], rest) := by
  intro l
  induction l with
  | nil =>
    intro acc
    rw [escQ, List.nil_append, List.nil_append, recQ_step_close_comma,
      recQ_step_close_nl]
    simp
  | cons c l ih =>
    intro acc
    by_cases hc : c = '\"'
    · subst hc
      have hesc : escQ ('\"' :: l) = '\"' :: '\"' :: escQ l := by
        rw [escQ]; simp
      obtain ⟨ih1, ih2⟩ := ih (acc ++ ['\"'])
      constructor
      · rw [hesc, List.cons_append, List.cons_append, recQ_step_dquote, ih1]
        simp
      · rw [hesc, List.cons_append, List.cons_append, recQ_step_dquote, ih2]
        simp
    · have hesc : escQ (c :: l) = c :: escQ l := by
        rw [escQ]; simp [hc]
      obtain ⟨ih1, ih2⟩ := ih (acc ++ [c])
      constructor
      · rw [hesc, List.cons_append, recQ_step_plain gs acc _ c hc, ih1]
        simp
      · rw [hesc, List.cons_append, recQ_step_plain gs acc _ c hc, ih2]
        simp

/-- Reading back one serialised cell: whether the writer quoted it or not,
the reader recovers exactly the original cell string and continues at the
delimiter that follows it. -/
theorem recU_field (gs : List String) (f : String) (rest : List Char) :
    recU gs [] (encodeField f ++ ',' :: rest) = recU (gs ++ [f]) [] rest ∧
    recU gs [] (encodeField f ++ '\n' :: rest) = some (gs ++ [f], rest) := by
  by_cases hq : needsQuote f.data
  · have henc : encodeField f = '\"' :: (escQ f.data ++ ['\"']) := by
      rw [encodeField, if_pos hq]
    obtain ⟨h1, h2⟩ := recQ_escape gs rest f.data []
    constructor
    · rw [henc, List.cons_append, List.append_assoc, List.singleton_append,
        recU_step_quote, h1]
      simp
    · rw [henc, List.cons_append, List.append_assoc, List.singleton_append,
        recU_step_quote, h2]
      simp
  · have henc : encodeField f = f.data := by
      rw [encodeField, if_neg hq]
    have hchars : ∀ c ∈ f.data, ¬ c = ',' ∧ ¬ c = '\n' ∧ ¬ c = '\"' := by
      intro c hcmem
      rw [needsQuote] at hq
      simp only [List.any_eq_true, not_exists, not_and] at hq
      have := hq c hcmem
      simp only [Bool.or_eq_true, decide_eq_true_eq, not_or] at this
      refine ⟨by tauto, by tauto, by tauto⟩
    obtain ⟨h1, h2⟩ := recU_plain gs rest f.data [] hchars
    constructor
    · rw [henc, h1]
      simp
    · rw [henc, h2]
      simp

/-- Unfolding of `joinFields` on a record with at least two cells. -/
theorem joinFields_cons_cons (f f2 : String) (t : List String) :
    joinFields (f :: f2 :: t) = encodeField f ++ ',' :: joinFields (f2 :: t) :=
  rfl

/-- Reading back one serialised record: the reader recovers exactly the
original non-empty list of cells and continues after the newline that
ends the record. -/
theorem recU_record (rest : List Char) :
    ∀ (fs : List String) (gs : List String), fs ≠ [] →
      recU gs [] (encodeRec fs ++ rest) = some (gs ++ fs, rest) := by
  intro fs
  induction fs with
  | nil => intro gs h; exact absurd rfl h
  | cons f fs ih =>
    intro gs _
    cases fs with
    | nil =>
      have : encodeRec [f] ++ rest = encodeField f ++ '\n' :: rest := by
        rw [encodeRec, joinFields]
        simp
      rw [this, (recU_field gs f rest).2]
    | cons f2 t =>
      have hjoin : encodeRec (f :: f2 :: t) ++ rest =
          encodeField f ++ ',' :: (encodeRec (f2 :: t) ++ rest) := by
        rw [encodeRec, encodeRec, joinFields_cons_cons]
        simp [List.append_assoc]
      rw [hjoin, (recU_field gs f _).1, ih (gs ++ [f]) (List.cons_ne_nil f2 t)]
      simp


/-- A serialised table has at least one character per record (each record
ends with its newline). -/
theorem encodeTable_length :
    ∀ rs : List (List String), rs.length ≤ (encodeTable rs).length := by
  intro rs
  induction rs with
  | nil => simp [encodeTable]
  | cons r t ih =>
    rw [encodeTable, List.length_append, List.length_cons]
    have h1 : 1 ≤ (encodeRec r).length := by
      rw [encodeRec, List.length_append]
      simp
    omega

/-- Reading back a serialised table with enough fuel recovers exactly the
original records, provided every record has at least one cell. -/
theorem parseRowsFuel_encode :
    ∀ (rs : List (List String)) (fuel : Nat), (∀ r ∈ rs, r ≠ []) →
      rs.length ≤ fuel → parseRowsFuel fuel (encodeTable rs) = some rs := by
  intro rs
  induction rs with
  | nil =>
    intro fuel _ _
    cases fuel with
    | zero => rfl
    | succ f => rfl
  | cons r t ih =>
    intro fuel hne hlen
    cases fuel with
    | zero => simp at hlen
    | succ f =>
      have hrne : r ≠ [] := hne r (List.mem_cons_self r t)
      have htne : ∀ x ∈ t, x ≠ [] :=
        fun x hx => hne x (List.mem_cons_of_mem r hx)
      obtain ⟨c, cs, hct⟩ : ∃ c cs,
          encodeRec r ++ encodeTable t = c :: cs := by
        cases h : encodeRec r ++ encodeTable t with
        | nil =>
          rw [List.append_eq_nil] at h
          have := h.1
          rw [encodeRec, List.append_eq_nil] at this
          simp at this
        | cons c cs => exact ⟨c, cs, rfl⟩
      have hrecu : recU [] [] (c :: cs) = some (r, encodeTable t) := by
        rw [← hct]
        have := recU_record (encodeTable t) r [] hrne
        simpa using this
      have htbl : encodeTable (r :: t) = c :: cs := by
        rw [encodeTable, hct]
      rw [htbl, parseRowsFuel, hrecu]
      dsimp only
      rw [ih f htne (by simpa using hlen)]

/-- Claim C8: CSV export round-trip.  Serialising any filtered forecast
collection with `to_csv` (header row, no index column) and re-parsing the
CSV yields exactly the cell values of the original rows in order — in particular
the same set of (city, date) pairs, with every field value matching the
original row. -/
theorem to_csv_roundtrip (rows : List ForecastRow) :
    parseCsv (to_csv rows) = some (rows.map toFields) := by
  have hne : ∀ r ∈ (headerFields :: rows.map toFields), r ≠ [] := by
    intro r hr
    rcases List.mem_cons.mp hr with h | h
    · subst h; simp [headerFields]
    · obtain ⟨x, hx, rfl⟩ := List.mem_map.mp h
      simp [toFields]
  have hparse := parseRowsFuel_encode (headerFields :: rows.map toFields)
      ((encodeTable (headerFields :: rows.map toFields)).length) hne
      (encodeTable_length _)
  have hdata : (to_csv rows).data =
      encodeTable (headerFields :: rows.map toFields) := rfl
  rw [parseCsv, hdata, hparse]
  simp

end TexasWeather
